import Mathlib

/-!
Shallow embedding of the virtual-filesystem cache layer of `onedrive-fuse`
(`src/vfs/file.rs` and `src/vfs/dir.rs`): the directory snapshot pool, the
streaming reader, the disk-backed file cache with its download/upload state
machine, and the admission/eviction/invalidation logic of the disk cache.

Machine integers of the source (`u64`, `usize`) are modelled as `Nat`; none of
the modelled arithmetic overflows in the source's domain.  Bytes are `Nat`.
Asynchronous state observed under separate acquisitions of the `state` mutex
is passed explicitly (the pure functions receive the state seen at each lock
acquisition as an argument).  `unreachable!()`, failing `assert!`s and
out-of-range slice indexing are modelled by a distinguished `panicked`
outcome.
-/

namespace OnedriveFuse

abbrev Byte := Nat
abbrev ItemId := String
abbrev Tag := String

/-- Error kinds of `vfs::Error` used by the file/dir layer. -/
inductive Error where
  | InvalidHandle (fh : Nat)
  | FileTooLarge
  | WriteWithoutCache
  | NonsequentialRead (current_pos try_offset : Nat)
  | UnexpectedEndOfDownload (current_pos file_size : Nat)
  | Invalidated
  deriving DecidableEq, Repr

/-- Result of an operation that, besides succeeding or failing with an
`Error`, may abort the process (`unreachable!`, failed `assert!`, slice
index out of range). -/
inductive Outcome (α : Type) where
  | ok (a : α)
  | err (e : Error)
  | panicked
  deriving DecidableEq, Repr

/-- The `UpdatedFileAttr` returned by writes and upload events. -/
structure UpdatedFileAttr where
  item_id : ItemId
  size : Nat
  mtime : Nat
  c_tag : Option Tag
  deriving DecidableEq, Repr

/-- Status `FileCacheStatus`: the per-cache state machine.  The `Dirty` payload is
the mtime token (`Instant` in the source, modelled as `Nat`). -/
inductive FileCacheStatus where
  | Downloading
  | Available
  | Dirty (mtime : Nat)
  | Invalidated
  deriving DecidableEq, Repr

/-- State `FileCacheState`: the fields guarded by the per-cache async mutex.
`available_size` is the current value of the watch channel;
`cache_file` is the content of the backing file. -/
structure FileCacheState where
  status : FileCacheStatus
  file_size : Nat
  available_size : Nat
  cache_file : List Byte
  deriving DecidableEq, Repr

/- ### Streaming reader (`FileStreamState`) -/

/-- State `FileStreamState`: per-handle streaming reader state.  `rx` is the
sequence of chunks still to be received from the bounded channel; the
channel closes after the last one. -/
structure FileStreamState where
  current_pos : Nat
  buffer : Option (List Byte)
  rx : List (List Byte)
  deriving DecidableEq, Repr

/-- The body of the drain loop of `FileStreamState::read` once a chunk is in
hand (from the leftover buffer or the channel): either the chunk overfills
the remaining capacity (fill up, stash the rest in the buffer, break), or
it is appended whole — breaking when full, else looping on the remaining
channel content `rx`. -/
def streamDrainGo (size : Nat) : List (List Byte) → List Byte →
    List Byte × Option (List Byte) × List (List Byte)
  | [], acc => (acc, none, [])
  | chunk :: rx, acc =>
    let buf_rest_len := size - acc.length
    if buf_rest_len < chunk.length then
      (acc ++ chunk.take buf_rest_len, some (chunk.drop buf_rest_len), rx)
    else
      let acc' := acc ++ chunk
      if acc'.length = size then (acc', none, rx)
      else streamDrainGo size rx acc'

/-- The drain loop of `FileStreamState::read`: `self.buffer.take()` is
consumed first, exactly as if it were the front of the channel, then the
channel content `rx`; accumulation stops when `size` bytes are gathered or
the channel closes.  Returns the accumulated bytes, the new leftover
buffer and the remaining channel content. -/
def streamDrain (size : Nat) (buffer : Option (List Byte)) (rx : List (List Byte))
    (acc : List Byte) : List Byte × Option (List Byte) × List (List Byte) :=
  match buffer with
  | some chunk => streamDrainGo size (chunk :: rx) acc
  | none => streamDrainGo size rx acc

namespace FileStreamState

/-- Model of `FileStreamState::read`: fail `NonsequentialRead` off-position, else
drain chunks; advance `current_pos` by the bytes drained; short result
fails `UnexpectedEndOfDownload` (carrying the advanced position). -/
def read (s : FileStreamState) (file_size offset size : Nat) :
    Except Error (List Byte) × FileStreamState :=
  if offset ≠ s.current_pos then
    (.error (.NonsequentialRead s.current_pos offset), s)
  else
    let r := streamDrain size s.buffer s.rx []
    let pos' := s.current_pos + r.1.length
    let s' : FileStreamState := ⟨pos', r.2.1, r.2.2⟩
    if r.1.length = size then (.ok r.1, s')
    else (.error (.UnexpectedEndOfDownload pos' file_size), s')

end FileStreamState

/- ### Download producer (`download_thread`) -/

/-- Model of `download_thread`: starting at `pos`, while `pos < file_size` forward the
response chunks to the channel, advancing `pos` by each chunk's length.
`resps` is the sequence of chunks the HTTP responses deliver; an empty rest
models the response ending (retries exhausted terminate silently, sending
nothing further). Returns the list of chunks sent. -/
def download_thread (file_size : Nat) : Nat → List (List Byte) → List (List Byte)
  | _, [] => []
  | pos, chunk :: rest =>
    if pos < file_size then chunk :: download_thread file_size (pos + chunk.length) rest
    else []

/- ### FileCache -/

namespace FileCache

/-- Model of `FileCache::wait_bytes_available`: `s` is the state at the first lock
acquisition; when the caller has to subscribe to the watch and wait, `s2`
is the state observed at the re-acquisition after the watch loop exits
(watch value `≥ end_` or channel closed).  Returns the guard state. -/
def wait_bytes_available (s : FileCacheState) (end_ : Nat) (s2 : FileCacheState) :
    Except Error FileCacheState :=
  match s.status with
  | .Available | .Dirty _ => .ok s
  | .Invalidated => .error .Invalidated
  | .Downloading =>
    if end_ ≤ s.available_size then .ok s
    else
      match s2.status with
      | .Available | .Dirty _ => .ok s2
      | .Invalidated => .error .Invalidated
      | .Downloading =>
        if s2.available_size < end_ then
          .error (.UnexpectedEndOfDownload s2.available_size s2.file_size)
        else .ok s2

/-- Model of `FileCache::read`: empty on out-of-range or zero-size reads, otherwise
wait for `end = min file_size (offset+size)` bytes and slice the backing
file.  `s` is the state at the first lock, `s2` the state observed after a
watch wait (as in `wait_bytes_available`). -/
def read (s : FileCacheState) (offset size : Nat) (s2 : FileCacheState) :
    Except Error (List Byte) :=
  if s.file_size ≤ offset ∨ size = 0 then .ok []
  else
    let end_ := min s.file_size (offset + size)
    match wait_bytes_available s end_ s2 with
    | .error e => .error e
    | .ok g => .ok ((g.cache_file.drop offset).take (end_ - offset))

/-- Writing `data` into a backing file at `offset` (seek + `write_all`;
a seek past the end leaves a zero-filled hole). -/
def writeAt (content : List Byte) (offset : Nat) (data : List Byte) : List Byte :=
  content.take offset ++ List.replicate (offset - content.length) 0 ++ data ++
    content.drop (offset + data.length)

/-- Result of `FileCache::write`: the updated guard state, the amount added
to the disk-cache aggregate byte counter, the mtime token of the spawned
uploader (if any), and the returned `UpdatedFileAttr`. -/
structure WriteOut where
  state : FileCacheState
  total_delta : Nat
  spawned_uploader : Option Nat
  attr : UpdatedFileAttr
  deriving DecidableEq, Repr

/-- Model of `FileCache::write`: reject `FileTooLarge` past `upload.max_size`, wait
for the whole (pre-write) `file_size` to be available, flip the status to
`Dirty mtime` and spawn an uploader, write the data, grow `file_size` to
`max file_size (offset + |data|)` adding the positive delta to the
aggregate counter, and return the attributes with `c_tag = none`.
`mtime` is the fresh `Instant::now()` token, `mtime_sys` the wall-clock
mtime; `s2` as in `wait_bytes_available`.  A guard status of `Downloading`
or `Invalidated` after the wait hits `unreachable!()`. -/
def write (item_id : ItemId) (s : FileCacheState) (offset : Nat) (data : List Byte)
    (max_size mtime mtime_sys : Nat) (s2 : FileCacheState) :
    Outcome WriteOut × FileCacheState :=
  if max_size < offset + data.length then (.err .FileTooLarge, s)
  else
    match wait_bytes_available s s.file_size s2 with
    | .error e => (.err e, s)
    | .ok g =>
      match g.status with
      | .Downloading | .Invalidated => (.panicked, g)
      | .Dirty _ | .Available =>
        let new_size := max g.file_size (offset + data.length)
        let g' : FileCacheState :=
          { status := .Dirty mtime
            file_size := new_size
            available_size := g.available_size
            cache_file := writeAt g.cache_file offset data }
        (.ok { state := g'
               total_delta := new_size - g.file_size
               spawned_uploader := some mtime
               attr := { item_id := item_id, size := new_size,
                         mtime := mtime_sys, c_tag := none } }, g')

/-- One step of `FileCache::write_to_cache_thread`: consume the chunks from
the channel, writing each at the current position and broadcasting the new
position on the watch; on reaching `file_size`, assert the status is
`Downloading` and flip it to `Available`, then exit.  When the channel
closes first, exit with the state as it stands. -/
def write_to_cache_thread (s : FileCacheState) : List (List Byte) → Nat →
    Outcome FileCacheState
  | [], _ => .ok s
  | chunk :: rest, pos =>
    let pos' := pos + chunk.length
    let s' : FileCacheState :=
      { s with cache_file := writeAt s.cache_file pos chunk, available_size := pos' }
    if pos' = s'.file_size then
      match s'.status with
      | .Downloading => .ok { s' with status := .Available }
      | _ => .panicked
    else write_to_cache_thread s' rest pos'

/-- Attributes the server reports for a successful `upload_small`. -/
structure ServerAttr where
  size : Nat
  mtime : Nat
  c_tag : Tag
  deriving DecidableEq, Repr

/-- Observable result of one pass of `FileCache::upload_thread`. -/
structure UploadOut where
  uploaded : Option (List Byte)
  c_tag : Tag
  event : Option UpdatedFileAttr
  status : FileCacheStatus
  deriving DecidableEq, Repr

/-- Model of `FileCache::upload_thread` (one pass, upload succeeding): after the
`flush_delay` sleep, under the state lock (state `s1`): if the status is
`Dirty t` with `t = lock_mtime`, read the whole backing file, else return
without uploading.  On upload success update `c_tag`, emit an `UpdateFile`
event with the server-confirmed attributes, then under the state lock again
(state `s2`): flip `Dirty lock_mtime` to `Available`, leaving any other
status unchanged.  `c_tag` is the cache's tag before the pass. -/
def upload_thread (item_id : ItemId) (c_tag : Tag) (s1 : FileCacheState)
    (lock_mtime : Nat) (server : ServerAttr) (s2 : FileCacheState) : UploadOut :=
  match s1.status with
  | .Dirty m =>
    if m = lock_mtime then
      let data := s1.cache_file.take s1.file_size
      let ev : UpdatedFileAttr :=
        { item_id := item_id, size := server.size,
          mtime := server.mtime, c_tag := some server.c_tag }
      let status' :=
        match s2.status with
        | .Dirty m2 => if m2 = lock_mtime then .Available else .Dirty m2
        | st => st
      { uploaded := some data, c_tag := server.c_tag, event := some ev,
        status := status' }
    else { uploaded := none, c_tag := c_tag, event := none, status := s1.status }
  | _ => { uploaded := none, c_tag := c_tag, event := none, status := s1.status }

end FileCache

/- ### DiskCache -/

/-- The disk-cache configuration fields the admission path consults. -/
structure DiskCacheConfig where
  max_cached_file_size : Nat
  max_files : Nat
  max_total_size : Nat
  deriving DecidableEq, Repr

/-- An entry of the disk-cache LRU as the admission/eviction path sees it:
its backing-file size and whether a live handle still holds a strong
reference (in which case dropping it from the LRU does not yet decrement
the aggregate byte counter — the `Drop` impl only fires on the last
reference). -/
structure CacheEntry where
  file_size : Nat
  pinned : Bool
  deriving DecidableEq, Repr

/-- The disk-cache state the admission path manipulates: the LRU (ordered
least-recently-used first, so `remove_lru` pops the head) and the
aggregate byte counter `total_size`. -/
structure DiskCacheModel where
  lru : List (ItemId × CacheEntry)
  total_size : Nat
  deriving DecidableEq, Repr

/-- Outcome of `DiskCache::try_alloc_and_fetch`. -/
inductive AllocOutcome where
  | rejected
  | existing
  | admitted (status : FileCacheStatus)
  deriving DecidableEq, Repr

namespace DiskCache

/-- The eviction loop of `try_alloc_and_fetch`: while
`max_cached_file_size < total_size + file_size`, pop the LRU tail
(decrementing `total_size` by its size only when the drop is final, i.e.
the entry is not pinned by a live handle).  Returns `(none, total)` when
the LRU ran empty, else `(some lru, total)`. -/
def evict_loop (cfg : DiskCacheConfig) (file_size : Nat) :
    List (ItemId × CacheEntry) → Nat → Option (List (ItemId × CacheEntry)) × Nat
  | [], total =>
    if cfg.max_cached_file_size < total + file_size then (none, total)
    else (some [], total)
  | e :: rest, total =>
    if cfg.max_cached_file_size < total + file_size then
      evict_loop cfg file_size rest
        (if e.2.pinned then total else total - e.2.file_size)
    else (some (e :: rest), total)

/-- Model of `DiskCache::try_alloc_and_fetch`: reject oversized items, return an
existing entry as-is, evict per `evict_loop`, and otherwise insert a fresh
`FileCache` in status `Downloading` (adding its `file_size` to the
aggregate counter) as the most-recently-used entry. -/
def try_alloc_and_fetch (cfg : DiskCacheConfig) (m : DiskCacheModel)
    (item_id : ItemId) (file_size : Nat) : AllocOutcome × DiskCacheModel :=
  if cfg.max_cached_file_size < file_size then (.rejected, m)
  else if (m.lru.find? (fun e => e.1 = item_id)).isSome then (.existing, m)
  else
    match evict_loop cfg file_size m.lru m.total_size with
    | (none, total') => (.rejected, { lru := [], total_size := total' })
    | (some lru', total') =>
      (.admitted .Downloading,
       { lru := lru' ++ [(item_id, { file_size := file_size, pinned := false })],
         total_size := total' + file_size })

/-- A cache reachable from the LRU, as `sync_items` sees it: its id, its
current `c_tag` and its lock-guarded state. -/
structure CacheRec where
  item_id : ItemId
  c_tag : Tag
  state : FileCacheState
  deriving DecidableEq, Repr

/-- One element of a `sync_items` batch. -/
structure SyncItem where
  id : ItemId
  c_tag : Tag
  isFolder : Bool
  deriving DecidableEq, Repr

/-- The LRU pass of `sync_items`: folders and absent ids are skipped; a
matching `c_tag` is a no-op; a differing `c_tag` removes the record from
the LRU and collects it.  Returns the surviving LRU and the removed
records (in batch order). -/
def sync_items_collect : List CacheRec → List SyncItem →
    List CacheRec × List CacheRec
  | lru, [] => (lru, [])
  | lru, item :: rest =>
    if item.isFolder then sync_items_collect lru rest
    else
      match lru.find? (fun r => r.item_id = item.id) with
      | none => sync_items_collect lru rest
      | some r =>
        if r.c_tag = item.c_tag then sync_items_collect lru rest
        else
          let p := sync_items_collect (lru.filter (fun q => q.item_id ≠ item.id)) rest
          (p.1, r :: p.2)

/-- Model of `DiskCache::sync_items`: after releasing the LRU lock, each removed
cache's status is set to `Invalidated` under its state lock. -/
def sync_items (lru : List CacheRec) (items : List SyncItem) :
    List CacheRec × List CacheRec :=
  let p := sync_items_collect lru items
  (p.1, p.2.map fun r => { r with state := { r.state with status := .Invalidated } })

end DiskCache

/- ### FilePool -/

/-- A `File` handle variant. -/
inductive File where
  | Streaming (file_size : Nat)
  | Cached (item_id : ItemId)
  deriving DecidableEq, Repr

namespace FilePool

/-- Model of `FilePool::open_inner`: with the disk cache enabled, a hit in the cache
map returns a `Cached` handle at once; otherwise metadata is fetched and
admission attempted — success returns `Cached`, failure returns
`FileTooLarge` in write mode and a `Streaming` handle otherwise.  With the
cache disabled, write mode fails `WriteWithoutCache` and read mode streams. -/
def open_inner (enabled : Bool) (cfg : DiskCacheConfig) (m : DiskCacheModel)
    (item_id : ItemId) (file_size : Nat) (write_mode : Bool) :
    Except Error (File × DiskCacheModel) :=
  if enabled then
    if (m.lru.find? (fun e => e.1 = item_id)).isSome then .ok (.Cached item_id, m)
    else
      match DiskCache.try_alloc_and_fetch cfg m item_id file_size with
      | (.rejected, m') =>
        if write_mode then .error .FileTooLarge
        else .ok (.Streaming file_size, m')
      | (_, m') => .ok (.Cached item_id, m')
  else if write_mode then .error .WriteWithoutCache
  else .ok (.Streaming file_size, m)

/-- Model of `FilePool::open`: run `open_inner` and insert the resulting `File` into
the handle slab only on success; an error allocates no handle.  Returns
the outcome together with the handle table after the call. -/
def «open» (handles : List File) (enabled : Bool) (cfg : DiskCacheConfig)
    (m : DiskCacheModel) (item_id : ItemId) (file_size : Nat) (write_mode : Bool) :
    Except Error Nat × List File :=
  match open_inner enabled cfg m item_id file_size write_mode with
  | .error e => (.error e, handles)
  | .ok (f, _) => (.ok handles.length, handles ++ [f])

end FilePool

/- ### DirPool -/

/-- Inode attributes (only identity matters for the directory claims). -/
structure InodeAttr where
  size : Nat
  mtime : Nat
  isDirectory : Bool
  deriving DecidableEq, Repr

/-- A directory entry of a snapshot. -/
structure DirEntry where
  item_id : ItemId
  name : String
  attr : InodeAttr
  deriving DecidableEq, Repr

/-- An immutable directory snapshot: `c_tag`, server-ordered entries and the
name → index map. -/
structure DirSnapshot where
  c_tag : Tag
  entries : List DirEntry
  name_map : List (String × Nat)
  deriving DecidableEq, Repr

/-- Building the name → index map of a fresh snapshot. -/
def buildNameMap (entries : List DirEntry) : List (String × Nat) :=
  entries.enum.map fun p => (p.2.name, p.1)

/-- A 200 response to the directory fetch, with the children already parsed
by `InodeAttr::parse_drive_item` (a collaborator). -/
structure DirItemResp where
  c_tag : Tag
  children : List DirEntry
  deriving DecidableEq, Repr

namespace DirPool

/-- Looking up an inode in the directory LRU (`lru_cache.get_mut(&ino)`). -/
def lruFind (cache : List (Nat × DirSnapshot × Nat)) (ino : Nat) :
    Option (DirSnapshot × Nat) :=
  (cache.find? fun e => e.1 = ino).map fun e => e.2

/-- Inserting `(snapshot, fetched_at)` for `ino` into the directory LRU as
most-recently-used (capacity eviction of the collaborating `LruCache` is
not consulted by the claims). -/
def lruInsert (cache : List (Nat × DirSnapshot × Nat)) (ino : Nat)
    (snap : DirSnapshot) (t : Nat) : List (Nat × DirSnapshot × Nat) :=
  (ino, snap, t) :: cache.filter fun e => e.1 ≠ ino

/-- Observable result of `DirPool::open` (the handle allocation itself is a
slab insert of `snapshot`). -/
structure OpenOut where
  fetchIssued : Bool
  ifNoneMatch : Option Tag
  snapshot : DirSnapshot
  cache : List (Nat × DirSnapshot × Nat)
  deriving DecidableEq, Repr

/-- Model of `DirPool::open`: a cache hit fresher than `cache_ttl` returns the
existing snapshot with no fetch; otherwise a fetch is issued (conditional
on the previous snapshot's `c_tag` when one exists), `resp = none`
(“not modified”) reuses the previous snapshot with a refreshed
`fetched_at`, and a 200 response builds and caches a fresh snapshot.
`now` is the fetch time; the `InodePool::touch` of each child is a
collaborator side effect not modelled. A “not modified” with no previous
snapshot hits `Option::unwrap` on `None`. -/
def «open» (cache_ttl : Nat) (cache : List (Nat × DirSnapshot × Nat)) (ino : Nat)
    (now : Nat) (resp : Option DirItemResp) : Outcome OpenOut :=
  match lruFind cache ino with
  | some (snap, last_checked) =>
    if now - last_checked < cache_ttl then
      .ok { fetchIssued := false, ifNoneMatch := none, snapshot := snap,
            cache := cache }
    else
      match resp with
      | none =>
        .ok { fetchIssued := true, ifNoneMatch := some snap.c_tag, snapshot := snap,
              cache := lruInsert cache ino snap now }
      | some item =>
        let snap' : DirSnapshot :=
          { c_tag := item.c_tag, entries := item.children,
            name_map := buildNameMap item.children }
        .ok { fetchIssued := true, ifNoneMatch := some snap.c_tag, snapshot := snap',
              cache := lruInsert cache ino snap' now }
  | none =>
    match resp with
    | none => .panicked
    | some item =>
      let snap' : DirSnapshot :=
        { c_tag := item.c_tag, entries := item.children,
          name_map := buildNameMap item.children }
      .ok { fetchIssued := true, ifNoneMatch := none, snapshot := snap',
            cache := lruInsert cache ino snap' now }

/-- Model of `DirPool::read`: an unknown handle fails `InvalidHandle`; otherwise the
source slices `snapshot.entries[offset..]`, which panics when
`offset > entries.len()` and yields the suffix otherwise. -/
def read (handles : List (Nat × DirSnapshot)) (fh : Nat) (offset : Nat) :
    Outcome (List DirEntry) :=
  match handles.find? (fun e => e.1 = fh) with
  | none => .err (.InvalidHandle fh)
  | some p =>
    if offset ≤ p.2.entries.length then .ok (p.2.entries.drop offset)
    else .panicked

end DirPool

/- ### Theorems -/

/-- Finding an inode right after inserting it yields the inserted snapshot
and timestamp. -/
theorem lruFind_lruInsert_self (cache : List (Nat × DirSnapshot × Nat))
    (ino : Nat) (snap : DirSnapshot) (t : Nat) :
    DirPool.lruFind (DirPool.lruInsert cache ino snap t) ino = some (snap, t) := by
  simp [DirPool.lruFind, DirPool.lruInsert]

/-- Claim C1: the claim (and the spec) state that admission evicts the LRU
tail exactly while `current_total + file_size > max_total_size`.  The code
instead compares against `max_cached_file_size`
(`src/vfs/file.rs:416`), the per-file cap that was already checked, and
`max_total_size` is consulted nowhere else.  At the input below
(`max_cached_file_size = 100`, `max_total_size = 1000`, an LRU holding one
pinned 150-byte entry, a 50-byte candidate) the budget
`150 + 50 ≤ max_total_size` holds, so per the claim no eviction is needed
and the item is admitted; the code drains the LRU and returns "not
admitted". -/
theorem C1_admission_wrong_threshold :
    DiskCache.try_alloc_and_fetch ⟨100, 10, 1000⟩ ⟨[("a", ⟨150, true⟩)], 150⟩ "b" 50 =
      (.rejected, ⟨[], 150⟩) ∧
    150 + 50 ≤ (⟨100, 10, 1000⟩ : DiskCacheConfig).max_total_size ∧
    50 ≤ (⟨100, 10, 1000⟩ : DiskCacheConfig).max_cached_file_size := by
  refine ⟨?_, by decide, by decide⟩
  rfl

/-- Claim C2: a directory open whose cached snapshot is fresher than
`cache_ttl` returns the existing snapshot without issuing a fetch and
leaves the cache untouched; a stale snapshot triggers a fetch conditional
on the previous `c_tag`, and a "not modified" reply returns the previous
snapshot (so its entries are unchanged) while re-inserting it with
`fetched_at = now`. -/
theorem C2_dir_open_cache (cache_ttl : Nat) (cache : List (Nat × DirSnapshot × Nat))
    (ino now : Nat) (snap : DirSnapshot) (t : Nat)
    (hfind : DirPool.lruFind cache ino = some (snap, t)) :
    (now - t < cache_ttl → ∀ resp,
      DirPool.«open» cache_ttl cache ino now resp =
        .ok { fetchIssued := false, ifNoneMatch := none, snapshot := snap,
              cache := cache }) ∧
    (cache_ttl ≤ now - t →
      DirPool.«open» cache_ttl cache ino now none =
        .ok { fetchIssued := true, ifNoneMatch := some snap.c_tag, snapshot := snap,
              cache := DirPool.lruInsert cache ino snap now } ∧
      DirPool.lruFind (DirPool.lruInsert cache ino snap now) ino = some (snap, now)) := by
  constructor
  · intro hfresh resp
    unfold DirPool.«open»
    rw [hfind]
    simp [hfresh]
  · intro hstale
    refine ⟨?_, lruFind_lruInsert_self ..⟩
    unfold DirPool.«open»
    rw [hfind]
    simp [Nat.not_lt.mpr hstale]

/-- Witness for C2 at a concrete cache: inode 7 cached at time 0 with
`cache_ttl = 10`; an open at time 5 is served from the cache, an open at
time 11 with a "not modified" reply reuses the snapshot and refreshes the
timestamp. -/
theorem C2_dir_open_cache_witness :
    (DirPool.«open» 10 [(7, ⟨"A", [], []⟩, 0)] 7 5 none =
      .ok { fetchIssued := false, ifNoneMatch := none, snapshot := ⟨"A", [], []⟩,
            cache := [(7, ⟨"A", [], []⟩, 0)] }) ∧
    (DirPool.«open» 10 [(7, ⟨"A", [], []⟩, 0)] 7 11 none =
      .ok { fetchIssued := true, ifNoneMatch := some "A", snapshot := ⟨"A", [], []⟩,
            cache := DirPool.lruInsert [(7, ⟨"A", [], []⟩, 0)] 7 ⟨"A", [], []⟩ 11 }) := by
  have h := C2_dir_open_cache 10 [(7, ⟨"A", [], []⟩, 0)] 7 5 ⟨"A", [], []⟩ 0 (by rfl)
  have h' := C2_dir_open_cache 10 [(7, ⟨"A", [], []⟩, 0)] 7 11 ⟨"A", [], []⟩ 0 (by rfl)
  exact ⟨h.1 (by omega) none, (h'.2 (by omega)).1⟩

/-- Claim C3: a streaming read off the current position fails
`NonsequentialRead` with the handle position and the attempted offset and
leaves the state unchanged; a read at the current position that drains
fewer bytes than requested (the channel closed early) fails
`UnexpectedEndOfDownload` carrying the advanced position and the file
size, and in every case `current_pos` advances by exactly the number of
bytes drained. -/
theorem C3_stream_read (s : FileStreamState) (file_size offset size : Nat) :
    (offset ≠ s.current_pos →
      FileStreamState.read s file_size offset size =
        (.error (.NonsequentialRead s.current_pos offset), s)) ∧
    (offset = s.current_pos →
      ((FileStreamState.read s file_size offset size).2.current_pos =
        s.current_pos + (streamDrain size s.buffer s.rx []).1.length) ∧
      ((streamDrain size s.buffer s.rx []).1.length ≠ size →
        (FileStreamState.read s file_size offset size).1 =
          .error (.UnexpectedEndOfDownload
            (s.current_pos + (streamDrain size s.buffer s.rx []).1.length) file_size)) ∧
      ((streamDrain size s.buffer s.rx []).1.length = size →
        (FileStreamState.read s file_size offset size).1 =
          .ok (streamDrain size s.buffer s.rx []).1)) := by
  constructor
  · intro hne
    unfold FileStreamState.read
    rw [if_pos hne]
  · intro heq
    subst heq
    unfold FileStreamState.read
    rw [if_neg (by simp)]
    refine ⟨?_, ?_, ?_⟩
    · dsimp only
      split <;> rfl
    · intro hne
      dsimp only
      rw [if_neg hne]
    · intro hsz
      dsimp only
      rw [if_pos hsz]

/-- Witness for C3: position 5, one 2-byte chunk left, file size 10.  A read
at offset 7 fails `NonsequentialRead{5, 7}`; a read of 4 bytes at offset 5
drains only 2 bytes and fails `UnexpectedEndOfDownload{7, 10}` with the
position advanced to 7. -/
theorem C3_stream_read_witness :
    (FileStreamState.read ⟨5, none, [[1, 2]]⟩ 10 7 4 =
      (.error (.NonsequentialRead 5 7), ⟨5, none, [[1, 2]]⟩)) ∧
    ((FileStreamState.read ⟨5, none, [[1, 2]]⟩ 10 5 4).2.current_pos = 7) ∧
    ((FileStreamState.read ⟨5, none, [[1, 2]]⟩ 10 5 4).1 =
      .error (.UnexpectedEndOfDownload 7 10)) := by
  have h := C3_stream_read ⟨5, none, [[1, 2]]⟩ 10 7 4
  have h' := C3_stream_read ⟨5, none, [[1, 2]]⟩ 10 5 4
  refine ⟨h.1 (by decide), ?_, ?_⟩
  · rw [(h'.2 (by rfl)).1]
    rfl
  · rw [(h'.2 (by rfl)).2.1 (by decide)]
    rfl

/-- Claim C4: a cached-file write with `offset + |data| > upload.max_size`
fails `FileTooLarge` leaving the cache state untouched; otherwise, once
`wait_bytes_available` has delivered the guard in status `Available` or
`Dirty`, the status becomes `Dirty mtime` for the fresh token, an uploader
with that token is spawned, `file_size` becomes
`max file_size (offset + |data|)`, the aggregate byte counter grows by the
positive delta only, and the returned `UpdatedFileAttr` carries the
cache's `item_id`, the new size and `c_tag = none`. -/
theorem C4_cache_write (item_id : ItemId) (s : FileCacheState) (offset : Nat)
    (data : List Byte) (max_size mtime mtime_sys : Nat) (s2 : FileCacheState) :
    (max_size < offset + data.length →
      FileCache.write item_id s offset data max_size mtime mtime_sys s2 =
        (.err .FileTooLarge, s)) ∧
    (offset + data.length ≤ max_size →
      ∀ g, FileCache.wait_bytes_available s s.file_size s2 = .ok g →
        (g.status = .Available ∨ ∃ m, g.status = .Dirty m) →
        ∃ out : FileCache.WriteOut,
          FileCache.write item_id s offset data max_size mtime mtime_sys s2 =
            (.ok out, out.state) ∧
          out.state.status = .Dirty mtime ∧
          out.spawned_uploader = some mtime ∧
          out.state.file_size = max g.file_size (offset + data.length) ∧
          out.total_delta = max g.file_size (offset + data.length) - g.file_size ∧
          out.attr = { item_id := item_id, size := max g.file_size (offset + data.length),
                       mtime := mtime_sys, c_tag := none }) := by
  constructor
  · intro hbig
    unfold FileCache.write
    rw [if_pos hbig]
  · intro hle g hwait hst
    unfold FileCache.write
    rw [if_neg (Nat.not_lt.mpr hle)]
    simp only [hwait]
    rcases hst with h | ⟨m, h⟩ <;> rw [h] <;>
      exact ⟨_, rfl, rfl, rfl, rfl, rfl, rfl⟩

/-- Witness for C4: an `Available` 4-byte cache, `max_size = 10`.  A 8-byte
write at offset 5 fails `FileTooLarge`; a 2-byte write at offset 3 turns
the status `Dirty 9`, spawns an uploader with token 9, grows the file to 5
bytes, adds 1 to the aggregate counter and returns attributes with
`c_tag = none`. -/
theorem C4_cache_write_witness :
    (FileCache.write "y" ⟨.Available, 4, 4, [0, 1, 2, 3]⟩ 5 (List.replicate 8 7) 10 9 20
        ⟨.Available, 4, 4, [0, 1, 2, 3]⟩ =
      (.err .FileTooLarge, ⟨.Available, 4, 4, [0, 1, 2, 3]⟩)) ∧
    ∃ out : FileCache.WriteOut,
      FileCache.write "y" ⟨.Available, 4, 4, [0, 1, 2, 3]⟩ 3 [7, 7] 10 9 20
          ⟨.Available, 4, 4, [0, 1, 2, 3]⟩ = (.ok out, out.state) ∧
      out.state.status = .Dirty 9 ∧
      out.spawned_uploader = some 9 ∧
      out.state.file_size = 5 ∧
      out.total_delta = 1 ∧
      out.attr = { item_id := "y", size := 5, mtime := 20, c_tag := none } := by
  have h := C4_cache_write "y" ⟨.Available, 4, 4, [0, 1, 2, 3]⟩ 5 (List.replicate 8 7)
    10 9 20 ⟨.Available, 4, 4, [0, 1, 2, 3]⟩
  have h' := C4_cache_write "y" ⟨.Available, 4, 4, [0, 1, 2, 3]⟩ 3 [7, 7]
    10 9 20 ⟨.Available, 4, 4, [0, 1, 2, 3]⟩
  refine ⟨h.1 (by decide), ?_⟩
  obtain ⟨out, h1, h2, h3, h4, h5, h6⟩ :=
    h'.2 (by decide) ⟨.Available, 4, 4, [0, 1, 2, 3]⟩ rfl (Or.inl rfl)
  exact ⟨out, h1, h2, h3, h4, h5, h6⟩

/-- Claim C5: one pass of the uploader with token `lock_mtime`: it reads and
uploads the backing file only when the status at its first lock is
`Dirty lock_mtime`, returning untouched otherwise; on upload success it
takes the server's `c_tag`, emits an `UpdateFile` event carrying that
confirmed `c_tag`, and flips the status to `Available` only when the
status at the reconcile lock is still `Dirty lock_mtime`, leaving it
unchanged otherwise. -/
theorem C5_upload_thread_pass (item_id : ItemId) (c_tag : Tag) (s1 : FileCacheState)
    (lock_mtime : Nat) (server : FileCache.ServerAttr) (s2 : FileCacheState) :
    (s1.status = .Dirty lock_mtime →
      (FileCache.upload_thread item_id c_tag s1 lock_mtime server s2).uploaded =
        some (s1.cache_file.take s1.file_size) ∧
      (FileCache.upload_thread item_id c_tag s1 lock_mtime server s2).c_tag =
        server.c_tag ∧
      (FileCache.upload_thread item_id c_tag s1 lock_mtime server s2).event =
        some { item_id := item_id, size := server.size, mtime := server.mtime,
               c_tag := some server.c_tag } ∧
      (s2.status = .Dirty lock_mtime →
        (FileCache.upload_thread item_id c_tag s1 lock_mtime server s2).status =
          .Available) ∧
      (s2.status ≠ .Dirty lock_mtime →
        (FileCache.upload_thread item_id c_tag s1 lock_mtime server s2).status =
          s2.status)) ∧
    (s1.status ≠ .Dirty lock_mtime →
      FileCache.upload_thread item_id c_tag s1 lock_mtime server s2 =
        { uploaded := none, c_tag := c_tag, event := none, status := s1.status }) := by
  constructor
  · intro h1
    unfold FileCache.upload_thread
    simp only [h1, if_true]
    refine ⟨trivial, trivial, trivial, ?_, ?_⟩
    · intro h2
      rw [h2]
      simp
    · intro h2
      cases hs2 : s2.status with
      | Dirty m2 =>
        rw [hs2] at h2
        have : m2 ≠ lock_mtime := fun hm => h2 (by rw [hm])
        simp [this]
      | Downloading => simp
      | Available => simp
      | Invalidated => simp
  · intro h1
    unfold FileCache.upload_thread
    cases hs1 : s1.status with
    | Dirty m =>
      rw [hs1] at h1
      have : m ≠ lock_mtime := fun hm => h1 (by rw [hm])
      simp [this, ← hs1]
    | Downloading => simp [← hs1]
    | Available => simp [← hs1]
    | Invalidated => simp [← hs1]

/-- Witness for C5: a cache `Dirty 3` observed at both locks with token 3
uploads its 2 bytes, adopts the server tag and becomes `Available`; with
token 4 it exits untouched. -/
theorem C5_upload_thread_pass_witness :
    ((FileCache.upload_thread "z" "old" ⟨.Dirty 3, 2, 2, [8, 9]⟩ 3 ⟨2, 30, "new"⟩
        ⟨.Dirty 3, 2, 2, [8, 9]⟩).uploaded = some [8, 9]) ∧
    ((FileCache.upload_thread "z" "old" ⟨.Dirty 3, 2, 2, [8, 9]⟩ 3 ⟨2, 30, "new"⟩
        ⟨.Dirty 3, 2, 2, [8, 9]⟩).c_tag = "new") ∧
    ((FileCache.upload_thread "z" "old" ⟨.Dirty 3, 2, 2, [8, 9]⟩ 3 ⟨2, 30, "new"⟩
        ⟨.Dirty 3, 2, 2, [8, 9]⟩).event =
      some { item_id := "z", size := 2, mtime := 30, c_tag := some "new" }) ∧
    ((FileCache.upload_thread "z" "old" ⟨.Dirty 3, 2, 2, [8, 9]⟩ 3 ⟨2, 30, "new"⟩
        ⟨.Dirty 3, 2, 2, [8, 9]⟩).status = .Available) ∧
    (FileCache.upload_thread "z" "old" ⟨.Dirty 3, 2, 2, [8, 9]⟩ 4 ⟨2, 30, "new"⟩
        ⟨.Dirty 3, 2, 2, [8, 9]⟩ =
      { uploaded := none, c_tag := "old", event := none, status := .Dirty 3 }) := by
  have h := C5_upload_thread_pass "z" "old" ⟨.Dirty 3, 2, 2, [8, 9]⟩ 3 ⟨2, 30, "new"⟩
    ⟨.Dirty 3, 2, 2, [8, 9]⟩
  have h' := C5_upload_thread_pass "z" "old" ⟨.Dirty 3, 2, 2, [8, 9]⟩ 4 ⟨2, 30, "new"⟩
    ⟨.Dirty 3, 2, 2, [8, 9]⟩
  obtain ⟨hu, hc, he, hav, _⟩ := h.1 rfl
  exact ⟨hu, hc, he, hav rfl, h'.2 (by decide)⟩

/-- Claim C7: a cached read with `offset ≥ file_size` or `size = 0` returns
empty without consulting `wait_bytes_available`; otherwise, with
`end = min file_size (offset + size)`, the read goes through
`wait_bytes_available` (which returns at once in status `Available`/`Dirty`
or once `end` bytes are available) and returns exactly `end − offset`
bytes of the backing file starting at `offset`; it fails `Invalidated` on
an invalidated cache and `UnexpectedEndOfDownload` when the watch closed
with fewer than `end` bytes available and the status still `Downloading`. -/
theorem C7_cache_read (s : FileCacheState) (offset size : Nat) (s2 : FileCacheState) :
    (s.file_size ≤ offset ∨ size = 0 → FileCache.read s offset size s2 = .ok []) ∧
    (offset < s.file_size → size ≠ 0 →
      (∀ g, FileCache.wait_bytes_available s (min s.file_size (offset + size)) s2 = .ok g →
        min s.file_size (offset + size) ≤ g.cache_file.length →
        FileCache.read s offset size s2 =
          .ok ((g.cache_file.drop offset).take (min s.file_size (offset + size) - offset)) ∧
        ((g.cache_file.drop offset).take (min s.file_size (offset + size) - offset)).length =
          min s.file_size (offset + size) - offset) ∧
      (∀ e, FileCache.wait_bytes_available s (min s.file_size (offset + size)) s2 = .error e →
        FileCache.read s offset size s2 = .error e) ∧
      (s.status = .Invalidated → FileCache.read s offset size s2 = .error .Invalidated) ∧
      (s.status = .Downloading →
        s.available_size < min s.file_size (offset + size) →
        s2.status = .Downloading →
        s2.available_size < min s.file_size (offset + size) →
        FileCache.read s offset size s2 =
          .error (.UnexpectedEndOfDownload s2.available_size s2.file_size))) := by
  constructor
  · intro h
    unfold FileCache.read
    rw [if_pos h]
  · intro hoff hsz
    have hcond : ¬(s.file_size ≤ offset ∨ size = 0) := by
      push_neg
      exact ⟨hoff, hsz⟩
    refine ⟨?_, ?_, ?_, ?_⟩
    · intro g hwait hlen
      unfold FileCache.read
      rw [if_neg hcond]
      simp only [hwait]
      refine ⟨trivial, ?_⟩
      simp only [List.length_take, List.length_drop]
      omega
    · intro e hwait
      unfold FileCache.read
      rw [if_neg hcond]
      simp only [hwait]
    · intro hinv
      unfold FileCache.read
      rw [if_neg hcond]
      unfold FileCache.wait_bytes_available
      simp only [hinv]
    · intro hdl hav hdl2 hav2
      unfold FileCache.read
      rw [if_neg hcond]
      unfold FileCache.wait_bytes_available
      simp only [hdl, hdl2, Nat.not_le.mpr hav, if_false, if_pos hav2]

/-- Witness for C7 on a `Downloading` 6-byte cache with 4 bytes available:
a read at offset 6 returns empty, a 2-byte read at offset 1 is served from
the backing file, a read needing byte 5 on a cache whose watch closed at 4
fails `UnexpectedEndOfDownload{4, 6}`, and a read on an invalidated cache
fails `Invalidated`. -/
theorem C7_cache_read_witness :
    (FileCache.read ⟨.Downloading, 6, 4, [0, 1, 2, 3, 0, 0]⟩ 6 2
        ⟨.Downloading, 6, 4, [0, 1, 2, 3, 0, 0]⟩ = .ok []) ∧
    (FileCache.read ⟨.Downloading, 6, 4, [0, 1, 2, 3, 0, 0]⟩ 1 2
        ⟨.Downloading, 6, 4, [0, 1, 2, 3, 0, 0]⟩ = .ok [1, 2]) ∧
    (FileCache.read ⟨.Downloading, 6, 4, [0, 1, 2, 3, 0, 0]⟩ 3 3
        ⟨.Downloading, 6, 4, [0, 1, 2, 3, 0, 0]⟩ =
      .error (.UnexpectedEndOfDownload 4 6)) ∧
    (FileCache.read ⟨.Invalidated, 6, 4, [0, 1, 2, 3, 0, 0]⟩ 1 2
        ⟨.Invalidated, 6, 4, [0, 1, 2, 3, 0, 0]⟩ = .error .Invalidated) := by
  have h0 := C7_cache_read ⟨.Downloading, 6, 4, [0, 1, 2, 3, 0, 0]⟩ 6 2
    ⟨.Downloading, 6, 4, [0, 1, 2, 3, 0, 0]⟩
  have h1 := C7_cache_read ⟨.Downloading, 6, 4, [0, 1, 2, 3, 0, 0]⟩ 1 2
    ⟨.Downloading, 6, 4, [0, 1, 2, 3, 0, 0]⟩
  have h2 := C7_cache_read ⟨.Downloading, 6, 4, [0, 1, 2, 3, 0, 0]⟩ 3 3
    ⟨.Downloading, 6, 4, [0, 1, 2, 3, 0, 0]⟩
  have h3 := C7_cache_read ⟨.Invalidated, 6, 4, [0, 1, 2, 3, 0, 0]⟩ 1 2
    ⟨.Invalidated, 6, 4, [0, 1, 2, 3, 0, 0]⟩
  refine ⟨h0.1 (by decide), ?_, ?_, ?_⟩
  · exact ((h1.2 (by decide) (by decide)).1 ⟨.Downloading, 6, 4, [0, 1, 2, 3, 0, 0]⟩
      rfl (by decide)).1
  · exact (h2.2 (by decide) (by decide)).2.2.2 rfl (by decide) rfl (by decide)
  · exact (h3.2 (by decide) (by decide)).2.2.1 rfl

/-- Claim C8: a write-mode `FilePool::open` with the disk cache enabled, the
item not already cached and admission rejected fails `FileTooLarge`; with
the disk cache disabled it fails `WriteWithoutCache`; in both cases the
handle table is left unchanged (no handle is allocated). -/
theorem C8_open_write_mode (handles : List File) (cfg : DiskCacheConfig)
    (m : DiskCacheModel) (item_id : ItemId) (file_size : Nat) :
    ((m.lru.find? (fun e => e.1 = item_id)).isSome = false →
      (DiskCache.try_alloc_and_fetch cfg m item_id file_size).1 = .rejected →
      FilePool.«open» handles true cfg m item_id file_size true =
        (.error .FileTooLarge, handles)) ∧
    (FilePool.«open» handles false cfg m item_id file_size true =
      (.error .WriteWithoutCache, handles)) := by
  constructor
  · intro hfind halloc
    unfold FilePool.«open» FilePool.open_inner
    rcases h : DiskCache.try_alloc_and_fetch cfg m item_id file_size with ⟨o, m'⟩
    rw [h] at halloc
    simp only at halloc
    subst halloc
    simp [hfind, h]
  · rfl

/-- Witness for C8: a one-item config where item "w" of 50 bytes cannot be
admitted (per-file cap 10); opening it for write with the cache enabled
fails `FileTooLarge` and with the cache disabled fails `WriteWithoutCache`,
leaving the empty handle table empty. -/
theorem C8_open_write_mode_witness :
    (FilePool.«open» [] true ⟨10, 5, 100⟩ ⟨[], 0⟩ "w" 50 true =
      (.error .FileTooLarge, [])) ∧
    (FilePool.«open» [] false ⟨10, 5, 100⟩ ⟨[], 0⟩ "w" 50 true =
      (.error .WriteWithoutCache, [])) := by
  have h := C8_open_write_mode [] ⟨10, 5, 100⟩ ⟨[], 0⟩ "w" 50
  exact ⟨h.1 (by decide) (by decide), h.2⟩

/-- Counterexample to claim C6 as stated: after `sync_items` sees the changed
`c_tag` "b" for the cached item "x" (stored tag "a") and invalidates it, a
read on the invalidated cache at `offset = 0` with `size = 5` succeeds
with empty bytes (the out-of-range early return of `FileCache::read` fires
before the status is ever consulted), instead of failing `Invalidated`. -/
theorem C6_read_after_invalidation_cex :
    DiskCache.sync_items [⟨"x", "a", ⟨.Available, 0, 0, []⟩⟩] [⟨"x", "b", false⟩] =
      ([], [⟨"x", "a", ⟨.Invalidated, 0, 0, []⟩⟩]) ∧
    FileCache.read ⟨.Invalidated, 0, 0, []⟩ 0 5 ⟨.Invalidated, 0, 0, []⟩ =
      .ok [] := by
  exact ⟨rfl, rfl⟩

/-- Claim C6 (amended): for a non-folder sync item, a cached entry with a
matching stored `c_tag` is left untouched in the LRU; a differing `c_tag`
removes the entry from the LRU and sets its status to `Invalidated` after
the LRU lock is released.  Thereafter every read requesting at least one
byte below `file_size`, and every write with
`offset + |data| ≤ upload.max_size`, fails with `Invalidated` at its next
state-lock acquisition and never succeeds again; reads at or past
`file_size` (or of size 0) return empty and larger writes fail
`FileTooLarge` instead. -/
theorem C6_sync_invalidation (lru : List DiskCache.CacheRec)
    (item : DiskCache.SyncItem) (r : DiskCache.CacheRec)
    (hfold : item.isFolder = false)
    (hfind : lru.find? (fun q => q.item_id = item.id) = some r) :
    (r.c_tag = item.c_tag → DiskCache.sync_items lru [item] = (lru, [])) ∧
    (r.c_tag ≠ item.c_tag →
      DiskCache.sync_items lru [item] =
        (lru.filter (fun q => q.item_id ≠ item.id),
         [{ r with state := { r.state with status := .Invalidated } }])) ∧
    (∀ s : FileCacheState, s.status = .Invalidated →
      (∀ offset size (s2 : FileCacheState), offset < s.file_size → size ≠ 0 →
        FileCache.read s offset size s2 = .error .Invalidated) ∧
      (∀ item_id offset data max_size mtime mtime_sys (s2 : FileCacheState),
        offset + List.length data ≤ max_size →
        FileCache.write item_id s offset data max_size mtime mtime_sys s2 =
          (.err .Invalidated, s)) ∧
      (∀ item_id offset data max_size mtime mtime_sys (s2 : FileCacheState),
        max_size < offset + List.length data →
        FileCache.write item_id s offset data max_size mtime mtime_sys s2 =
          (.err .FileTooLarge, s))) := by
  refine ⟨?_, ?_, ?_⟩
  · intro htag
    unfold DiskCache.sync_items
    simp [DiskCache.sync_items_collect, hfold, hfind, htag]
  · intro htag
    unfold DiskCache.sync_items
    simp [DiskCache.sync_items_collect, hfold, hfind, htag]
  · intro s hinv
    refine ⟨?_, ?_, ?_⟩
    · intro offset size s2 hoff hsz
      unfold FileCache.read
      rw [if_neg (by push_neg; exact ⟨hoff, hsz⟩)]
      unfold FileCache.wait_bytes_available
      simp only [hinv]
    · intro item_id offset data max_size mtime mtime_sys s2 hle
      unfold FileCache.write
      rw [if_neg (Nat.not_lt.mpr hle)]
      unfold FileCache.wait_bytes_available
      simp only [hinv]
    · intro item_id offset data max_size mtime mtime_sys s2 hbig
      unfold FileCache.write
      rw [if_pos hbig]

/-- Witness for C6: a two-entry LRU; syncing item "x" with its stored tag
leaves the LRU alone, syncing it with tag "b" removes it and invalidates
its cache; afterwards an in-range read and an in-bound write on the
invalidated state fail with `Invalidated` and an oversized write fails
`FileTooLarge`. -/
theorem C6_sync_invalidation_witness :
    (DiskCache.sync_items
        [⟨"x", "a", ⟨.Available, 3, 3, [5, 6, 7]⟩⟩, ⟨"y", "c", ⟨.Available, 1, 1, [9]⟩⟩]
        [⟨"x", "a", false⟩] =
      ([⟨"x", "a", ⟨.Available, 3, 3, [5, 6, 7]⟩⟩, ⟨"y", "c", ⟨.Available, 1, 1, [9]⟩⟩],
       [])) ∧
    (DiskCache.sync_items
        [⟨"x", "a", ⟨.Available, 3, 3, [5, 6, 7]⟩⟩, ⟨"y", "c", ⟨.Available, 1, 1, [9]⟩⟩]
        [⟨"x", "b", false⟩] =
      ([⟨"y", "c", ⟨.Available, 1, 1, [9]⟩⟩],
       [⟨"x", "a", ⟨.Invalidated, 3, 3, [5, 6, 7]⟩⟩])) ∧
    (FileCache.read ⟨.Invalidated, 3, 3, [5, 6, 7]⟩ 0 2 ⟨.Invalidated, 3, 3, [5, 6, 7]⟩ =
      .error .Invalidated) ∧
    (FileCache.write "x" ⟨.Invalidated, 3, 3, [5, 6, 7]⟩ 0 [1] 10 4 40
        ⟨.Invalidated, 3, 3, [5, 6, 7]⟩ = (.err .Invalidated, ⟨.Invalidated, 3, 3, [5, 6, 7]⟩)) ∧
    (FileCache.write "x" ⟨.Invalidated, 3, 3, [5, 6, 7]⟩ 8 [1, 1, 1] 10 4 40
        ⟨.Invalidated, 3, 3, [5, 6, 7]⟩ = (.err .FileTooLarge, ⟨.Invalidated, 3, 3, [5, 6, 7]⟩)) := by
  have h := C6_sync_invalidation
    [⟨"x", "a", ⟨.Available, 3, 3, [5, 6, 7]⟩⟩, ⟨"y", "c", ⟨.Available, 1, 1, [9]⟩⟩]
    ⟨"x", "a", false⟩ ⟨"x", "a", ⟨.Available, 3, 3, [5, 6, 7]⟩⟩ rfl (by decide)
  have h' := C6_sync_invalidation
    [⟨"x", "a", ⟨.Available, 3, 3, [5, 6, 7]⟩⟩, ⟨"y", "c", ⟨.Available, 1, 1, [9]⟩⟩]
    ⟨"x", "b", false⟩ ⟨"x", "a", ⟨.Available, 3, 3, [5, 6, 7]⟩⟩ rfl (by decide)
  have hi := (h.2.2 ⟨.Invalidated, 3, 3, [5, 6, 7]⟩ rfl)
  refine ⟨h.1 rfl, ?_, hi.1 0 2 _ (by decide) (by decide),
    hi.2.1 "x" 0 [1] 10 4 40 _ (by decide), hi.2.2 "x" 8 [1, 1, 1] 10 4 40 _ (by decide)⟩
  have := h'.2.1 (by decide)
  rw [this]
  rfl

/-- Counterexample to claim C9 as stated: on a zero-size cache stuck in
`Downloading`, a write whose `offset + |data|` exceeds `upload.max_size`
(here 20 > 10) does not reach the `unreachable!()` branch: it fails
`FileTooLarge` before the state lock is taken. -/
theorem C9_zero_write_no_panic_cex :
    FileCache.write "x" ⟨.Downloading, 0, 0, []⟩ 0 (List.replicate 20 0) 10 1 1
        ⟨.Downloading, 0, 0, []⟩ =
      (.err .FileTooLarge, ⟨.Downloading, 0, 0, []⟩) := by
  rfl

/-- Claim C9 (amended): a zero-size download sends no chunk, so the writer
task exits with the status still `Downloading` and the cache never becomes
`Available`; every read on such a cache returns empty bytes; every write
with `offset + |data| ≤ upload.max_size` reaches the `unreachable!()`
branch for the `Downloading` status and panics, while larger writes fail
`FileTooLarge` without panicking. -/
theorem C9_zero_size_cache (s : FileCacheState)
    (hs : s.status = .Downloading) (hfs : s.file_size = 0) :
    (∀ resps, download_thread 0 0 resps = []) ∧
    (∀ pos, FileCache.write_to_cache_thread s [] pos = .ok s) ∧
    (∀ offset size (s2 : FileCacheState), FileCache.read s offset size s2 = .ok []) ∧
    (∀ item_id offset data max_size mtime mtime_sys (s2 : FileCacheState),
      offset + List.length data ≤ max_size →
      FileCache.write item_id s offset data max_size mtime mtime_sys s2 =
        (.panicked, s)) ∧
    (∀ item_id offset data max_size mtime mtime_sys (s2 : FileCacheState),
      max_size < offset + List.length data →
      FileCache.write item_id s offset data max_size mtime mtime_sys s2 =
        (.err .FileTooLarge, s)) := by
  refine ⟨?_, fun _ => rfl, ?_, ?_, ?_⟩
  · intro resps
    cases resps <;> rfl
  · intro offset size s2
    unfold FileCache.read
    rw [if_pos (Or.inl (by omega))]
  · intro item_id offset data max_size mtime mtime_sys s2 hle
    unfold FileCache.write
    rw [if_neg (Nat.not_lt.mpr hle)]
    unfold FileCache.wait_bytes_available
    simp only [hs, hfs, Nat.zero_le, if_true]
  · intro item_id offset data max_size mtime mtime_sys s2 hbig
    unfold FileCache.write
    rw [if_pos hbig]

/-- Witness for C9 at the concrete zero-size cache: no chunk is produced,
the writer exits still `Downloading`, a read returns empty, an in-bound
write panics and an oversized write fails `FileTooLarge`. -/
theorem C9_zero_size_cache_witness :
    (download_thread 0 0 [[1, 2, 3]] = []) ∧
    (FileCache.write_to_cache_thread ⟨.Downloading, 0, 0, []⟩ [] 0 =
      .ok ⟨.Downloading, 0, 0, []⟩) ∧
    (FileCache.read ⟨.Downloading, 0, 0, []⟩ 0 4 ⟨.Downloading, 0, 0, []⟩ = .ok []) ∧
    (FileCache.write "x" ⟨.Downloading, 0, 0, []⟩ 0 [1] 10 1 1 ⟨.Downloading, 0, 0, []⟩ =
      (.panicked, ⟨.Downloading, 0, 0, []⟩)) ∧
    (FileCache.write "x" ⟨.Downloading, 0, 0, []⟩ 5 (List.replicate 6 0) 10 1 1
        ⟨.Downloading, 0, 0, []⟩ = (.err .FileTooLarge, ⟨.Downloading, 0, 0, []⟩)) := by
  have h := C9_zero_size_cache ⟨.Downloading, 0, 0, []⟩ rfl rfl
  exact ⟨h.1 [[1, 2, 3]], h.2.1 0, h.2.2.1 0 4 _,
    h.2.2.2.1 "x" 0 [1] 10 1 1 _ (by decide),
    h.2.2.2.2 "x" 5 (List.replicate 6 0) 10 1 1 _ (by decide)⟩

/-- Claim C10: `DirPool::read` on an unknown handle fails `InvalidHandle`;
on a valid handle whose snapshot has `n` entries it returns the suffix
starting at `offset` (in server order) when `offset ≤ n`, and panics on
the out-of-range slice `entries[offset..]` when `offset > n`. -/
theorem C10_dir_read (handles : List (Nat × DirSnapshot)) (fh offset : Nat) :
    (handles.find? (fun e => e.1 = fh) = none →
      DirPool.read handles fh offset = .err (.InvalidHandle fh)) ∧
    (∀ p, handles.find? (fun e => e.1 = fh) = some p →
      (offset ≤ p.2.entries.length →
        DirPool.read handles fh offset = .ok (p.2.entries.drop offset)) ∧
      (p.2.entries.length < offset →
        DirPool.read handles fh offset = .panicked)) := by
  constructor
  · intro h
    unfold DirPool.read
    rw [h]
  · intro p h
    constructor
    · intro hle
      unfold DirPool.read
      rw [h]
      simp only [if_pos hle]
    · intro hgt
      unfold DirPool.read
      rw [h]
      simp only [if_neg (Nat.not_le.mpr hgt)]

/-- Witness for C10: a handle table with handle 3 over a two-entry snapshot:
reading at offset 1 returns the last entry, at offset 5 panics, and an
unknown handle 9 fails `InvalidHandle 9`. -/
theorem C10_dir_read_witness :
    (DirPool.read [(3, ⟨"A", [⟨"i", "m", ⟨1, 2, false⟩⟩, ⟨"j", "n", ⟨3, 4, false⟩⟩], []⟩)]
        3 1 = .ok [⟨"j", "n", ⟨3, 4, false⟩⟩]) ∧
    (DirPool.read [(3, ⟨"A", [⟨"i", "m", ⟨1, 2, false⟩⟩, ⟨"j", "n", ⟨3, 4, false⟩⟩], []⟩)]
        3 5 = .panicked) ∧
    (DirPool.read [(3, ⟨"A", [⟨"i", "m", ⟨1, 2, false⟩⟩, ⟨"j", "n", ⟨3, 4, false⟩⟩], []⟩)]
        9 1 = .err (.InvalidHandle 9)) := by
  have h := C10_dir_read
    [(3, ⟨"A", [⟨"i", "m", ⟨1, 2, false⟩⟩, ⟨"j", "n", ⟨3, 4, false⟩⟩], []⟩)] 3 1
  have h' := C10_dir_read
    [(3, ⟨"A", [⟨"i", "m", ⟨1, 2, false⟩⟩, ⟨"j", "n", ⟨3, 4, false⟩⟩], []⟩)] 3 5
  have h'' := C10_dir_read
    [(3, ⟨"A", [⟨"i", "m", ⟨1, 2, false⟩⟩, ⟨"j", "n", ⟨3, 4, false⟩⟩], []⟩)] 9 1
  refine ⟨?_, ?_, h''.1 (by decide)⟩
  · exact (h.2 (3, ⟨"A", [⟨"i", "m", ⟨1, 2, false⟩⟩, ⟨"j", "n", ⟨3, 4, false⟩⟩], []⟩)
      (by decide)).1 (by decide)
  · exact (h'.2 (3, ⟨"A", [⟨"i", "m", ⟨1, 2, false⟩⟩, ⟨"j", "n", ⟨3, 4, false⟩⟩], []⟩)
      (by decide)).2 (by decide)

end OnedriveFuse
